import Mathlib

/-!
# midihands: the per-frame pipeline of `main.go`

A shallow embedding of `linlin`, `dist` and `processScore` of `src/main.go`.

Modelling conventions.

* A finite `float64` is idealised as an element of a linear ordered field `α`
  with a floor function (`ℚ` for evaluation) and arithmetic on finite values is
  exact: binary64 rounding, overflow and underflow are not represented.
* The IEEE special values are represented (`F64`): a division by zero yields an
  infinity or NaN, which is stored in the smoothing window and carried through
  the average, `linlin`, the product and `math.Round`.
* `math.Sqrt` is a parameter of the model (`Env.sqrt`).
* The conversion `int64(..)` is exact on values within the `int64` range; on a
  value outside it, an infinity or NaN, Go leaves the result to the
  implementation, and it is a parameter of the model (`Env.int64OutOfRange`).
* A run-time panic (index out of range) is the result `none` of `processHand`
  and the flag `panicked` of `processScore`.
* The goroutines started by `handleWebsocket` are run one frame after the other.
-/

namespace Midihands

/-! ## Numeric helpers -/

/-- Go `math.Round` on a finite value: the nearest integer, halves rounded away
from zero. -/
def mathRound {α : Type} [LinearOrderedField α] [FloorRing α] (x : α) : ℤ :=
  if 0 ≤ x then ⌊x + 1 / 2⌋ else -⌊-x + 1 / 2⌋

/-- Source `dist` (main.go 278-280); `math.Pow(d, 2)` is `d ^ 2`. -/
def dist {α : Type} [LinearOrderedField α] (sqrt : α → α) (x1 y1 x2 y2 : α) : α :=
  sqrt ((x1 - x2) ^ 2 + (y1 - y2) ^ 2)

/-- Source `linlin` (main.go 282-290). -/
def linlin {α : Type} [LinearOrderedField α] (f slo shi dlo dhi : α) : α :=
  if f ≤ slo then dlo
  else if f ≥ shi then dhi
  else (f - slo) / (shi - slo) * (dhi - dlo) + dlo

/-- The clamp of main.go 337-343 applied to one slot: above 127 becomes 127,
below 0 becomes 0. -/
def clampMidi (v : ℤ) : ℤ :=
  if v > 127 then 127 else if v < 0 then 0 else v

/-- A `float64` value: a finite number or one of the IEEE specials.  The zero is
the positive zero. -/
inductive F64 (α : Type) where
  | fin (x : α)
  | posInf
  | negInf
  | nan
  deriving DecidableEq

/-- IEEE addition, exact on finite values. -/
def F64.add {α : Type} [LinearOrderedField α] : F64 α → F64 α → F64 α
  | .fin x, .fin y => .fin (x + y)
  | .fin _, .posInf => .posInf
  | .fin _, .negInf => .negInf
  | .posInf, .fin _ => .posInf
  | .posInf, .posInf => .posInf
  | .posInf, .negInf => .nan
  | .negInf, .fin _ => .negInf
  | .negInf, .negInf => .negInf
  | .negInf, .posInf => .nan
  | .nan, _ => .nan
  | _, .nan => .nan

/-- IEEE subtraction, exact on finite values. -/
def F64.sub {α : Type} [LinearOrderedField α] : F64 α → F64 α → F64 α
  | .fin x, .fin y => .fin (x - y)
  | .fin _, .posInf => .negInf
  | .fin _, .negInf => .posInf
  | .posInf, .fin _ => .posInf
  | .posInf, .posInf => .nan
  | .posInf, .negInf => .posInf
  | .negInf, .fin _ => .negInf
  | .negInf, .negInf => .nan
  | .negInf, .posInf => .negInf
  | .nan, _ => .nan
  | _, .nan => .nan

/-- IEEE multiplication, exact on finite values. -/
def F64.mul {α : Type} [LinearOrderedField α] : F64 α → F64 α → F64 α
  | .fin x, .fin y => .fin (x * y)
  | .fin x, .posInf => if x = 0 then .nan else if 0 < x then .posInf else .negInf
  | .fin x, .negInf => if x = 0 then .nan else if 0 < x then .negInf else .posInf
  | .posInf, .fin y => if y = 0 then .nan else if 0 < y then .posInf else .negInf
  | .negInf, .fin y => if y = 0 then .nan else if 0 < y then .negInf else .posInf
  | .posInf, .posInf => .posInf
  | .posInf, .negInf => .negInf
  | .negInf, .posInf => .negInf
  | .negInf, .negInf => .posInf
  | .nan, _ => .nan
  | _, .nan => .nan

/-- IEEE division, exact on finite values: a nonzero finite value over zero is
an infinity of its sign, zero over zero is NaN. -/
def F64.div {α : Type} [LinearOrderedField α] : F64 α → F64 α → F64 α
  | .fin x, .fin y =>
    if y = 0 then (if x = 0 then .nan else if 0 < x then .posInf else .negInf)
    else .fin (x / y)
  | .fin _, .posInf => .fin 0
  | .fin _, .negInf => .fin 0
  | .posInf, .fin y => if 0 ≤ y then .posInf else .negInf
  | .negInf, .fin y => if 0 ≤ y then .negInf else .posInf
  | .posInf, .posInf => .nan
  | .posInf, .negInf => .nan
  | .negInf, .posInf => .nan
  | .negInf, .negInf => .nan
  | .nan, _ => .nan
  | _, .nan => .nan

/-- Go `math.Round`: a finite value is rounded, a special value is returned as
it is. -/
def F64.round {α : Type} [LinearOrderedField α] [FloorRing α] : F64 α → F64 α
  | .fin x => .fin (mathRound x : ℤ)
  | v => v

/-- The conversion `int64(f)`: a finite value is truncated toward zero; when the
result does not fit `int64`, or `f` is an infinity or NaN, the value is the
implementation-dependent `outOfRange f`. -/
def F64.toInt64 {α : Type} [LinearOrderedField α] [FloorRing α]
    (outOfRange : F64 α → ℤ) : F64 α → ℤ
  | .fin x =>
    if -2 ^ 63 ≤ (if 0 ≤ x then ⌊x⌋ else ⌈x⌉) ∧ (if 0 ≤ x then ⌊x⌋ else ⌈x⌉) < 2 ^ 63 then
      (if 0 ≤ x then ⌊x⌋ else ⌈x⌉)
    else outOfRange (.fin x)
  | v => outOfRange v

/-- Source `linlin` (main.go 282-290) on any `float64` value, the bounds being
finite: `+Inf` fails `f <= slo` and passes `f >= shi`, `-Inf` passes `f <= slo`,
and NaN fails both comparisons, so that the last branch computes NaN. -/
def F64.linlin {α : Type} [LinearOrderedField α] (f : F64 α) (slo shi dlo dhi : α) : F64 α :=
  match f with
  | .fin x => .fin (Midihands.linlin x slo shi dlo dhi)
  | .posInf => .fin dhi
  | .negInf => .fin dlo
  | .nan => .nan

/-! ## Data model -/

/-- One landmark of `HandData.MultiHandLandmarks` (main.go 174-178). -/
structure Landmark (α : Type) where
  X : α
  Y : α
  Z : α

/-- One entry of `HandData.MultiHandedness` (main.go 179-183). -/
structure Handedness (α : Type) where
  Index : ℤ
  Score : α
  Label : String

/-- Source `HandData` (main.go 172-184). -/
structure HandData (α : Type) where
  MIDIOut : String
  MultiHandLandmarks : List (List (Landmark α))
  MultiHandedness : List (Handedness α)

/-- Modelled from the spec: the window of the external package
`golang-moving-average` (not under src/), spec 4.3: a fixed-capacity FIFO of the
most recent samples, oldest first. -/
structure MovingAverage (α : Type) where
  Window : ℕ
  values : List α

/-- Modelled from the spec: `movingaverage.New(window)`, an empty window of the
given capacity. -/
def MovingAverage.New {α : Type} (window : ℕ) : MovingAverage α :=
  ⟨window, []⟩

/-- Modelled from the spec: `Add` of spec 4.3: if the window is full the oldest
sample is evicted, then the new one is appended. -/
def MovingAverage.Add {α : Type} (m : MovingAverage α) (v : α) : MovingAverage α :=
  if m.values.length < m.Window then ⟨m.Window, m.values ++ [v]⟩
  else ⟨m.Window, m.values.tail ++ [v]⟩

/-- Modelled from the spec: `Avg` of spec 4.3: the arithmetic mean of the samples
currently held, their sum divided by their number. -/
def MovingAverage.Avg {α : Type} [LinearOrderedField α] (m : MovingAverage (F64 α)) : F64 α :=
  F64.div (m.values.foldl F64.add (.fin 0)) (.fin (m.values.length : α))

/-- Modelled from the spec: the mean returned by gonum `stat.MeanStdDev` with all
weights `1.0` (not under src/), spec 4.2: the unweighted arithmetic mean. -/
def Mean {α : Type} [LinearOrderedField α] (xs : List α) : α :=
  xs.sum / (xs.length : α)

/-- The three windows of one hand side: `ma[label][0..2]` (main.go 87-92). -/
structure Windows (α : Type) where
  w0 : MovingAverage (F64 α)
  w1 : MovingAverage (F64 α)
  w2 : MovingAverage (F64 α)

/-- The shared mutable state: the map `ma`, which `main` creates with exactly the
keys "Left" and "Right" (main.go 86-92) and which is never re-keyed, and the
array `lastMidi` (main.go 46). -/
structure State (α : Type) where
  maLeft : Windows α
  maRight : Windows α
  lastMidi : Fin 6 → ℤ

/-- What is fixed for a run: `math.Sqrt`, what the platform returns for an
`int64` conversion that is out of range, the flag `flagFrameRate` and the key
set of the map `midiOuts` (main.go 100-111). -/
structure Env (α : Type) where
  sqrt : α → α
  int64OutOfRange : F64 α → ℤ
  flagFrameRate : ℤ
  midiOuts : List String

/-- The observable writes of `processScore`: the display update `c.WriteJSON`
(main.go 345-352, the text as its label, channel numbers and values) and the
controller message `WriteShort` on the stream of a named device (main.go 362). -/
inductive Event where
  | updateElement (ele label : String) (cc0 v0 cc1 v1 cc2 v2 : ℤ)
  | writeShort (device : String) (status data1 data2 : ℤ)
  deriving DecidableEq, Repr

/-- The state after `main` has run (main.go 46, 86-92): empty windows of capacity
`flagSmoothing`, all six `lastMidi` slots zero. -/
def State.init {α : Type} (flagSmoothing : ℕ) : State α :=
  { maLeft := ⟨.New flagSmoothing, .New flagSmoothing, .New flagSmoothing⟩
    maRight := ⟨.New flagSmoothing, .New flagSmoothing, .New flagSmoothing⟩
    lastMidi := fun _ => 0 }

/-- ASCII part of Go `strings.ToLower`. -/
def toLower (s : String) : String :=
  ⟨s.data.map Char.toLower⟩

/-- The map lookup `ma[label]`: the windows of a key that is present, `none` for
the nil slice of an absent key (whose index `[0]` panics). -/
def State.ma {α : Type} (s : State α) (label : String) : Option (Windows α) :=
  if label = "Left" then some s.maLeft
  else if label = "Right" then some s.maRight
  else none

/-- Writing back the windows of a key of `ma` (the windows are shared through
pointers in the source). -/
def State.setMa {α : Type} (s : State α) (label : String) (w : Windows α) : State α :=
  if label = "Left" then { s with maLeft := w }
  else if label = "Right" then { s with maRight := w }
  else s

/-- The slot `handNum*3+i` of the arrays `newMidi` and `lastMidi`. -/
def chan (handNum : Fin 2) (i : Fin 3) : Fin 6 :=
  ⟨handNum.val * 3 + i.val, by omega⟩

/-- The array `newMidi` after main.go 333-343: zero, the three slots of the hand
set to `int64(math.Round(v * 127))`, every slot clamped. -/
def newMidi {α : Type} [LinearOrderedField α] [FloorRing α]
    (outOfRange : F64 α → ℤ) (handNum : Fin 2) (meanX meanY spread : F64 α) : Fin 6 → ℤ :=
  let a0 : Fin 6 → ℤ := fun _ => 0
  let a1 := Function.update a0 (chan handNum 0)
    (F64.toInt64 outOfRange (F64.round (F64.mul meanX (.fin 127))))
  let a2 := Function.update a1 (chan handNum 1)
    (F64.toInt64 outOfRange (F64.round (F64.mul meanY (.fin 127))))
  let a3 := Function.update a2 (chan handNum 2)
    (F64.toInt64 outOfRange (F64.round (F64.mul spread (.fin 127))))
  fun k => clampMidi (a3 k)

/-- One iteration of the loop of main.go 360-365. -/
def dispatchStep (device : String) (handNum : Fin 2) (nm : Fin 6 → ℤ)
    (acc : (Fin 6 → ℤ) × List Event) (i : Fin 3) : (Fin 6 → ℤ) × List Event :=
  if nm (chan handNum i) ≠ acc.1 (chan handNum i) then
    (Function.update acc.1 (chan handNum i) (nm (chan handNum i)),
      acc.2 ++ [Event.writeShort device 0xB0 (chan handNum i).val (nm (chan handNum i))])
  else acc

/-- The compare-and-dispatch step of main.go 359-366: the new `lastMidi` and the
messages written, in order. -/
def dispatch (midiOuts : List String) (device : String) (handNum : Fin 2)
    (nm last : Fin 6 → ℤ) : (Fin 6 → ℤ) × List Event :=
  if device ∈ midiOuts then
    [0, 1, 2].foldl (dispatchStep device handNum nm) (last, [])
  else (last, [])

/-- The value of `handNum` after main.go 328-331. -/
def handNum (handedness : String) : Fin 2 :=
  if handedness = "right" then 1 else 0

/-- The raw spread of main.go 312; `none` is the panic of an index out of range
at `hand[0]`, `hand[12]` or `hand[17]`. -/
def rawSpread {α : Type} [LinearOrderedField α] (sqrt : α → α)
    (hand : List (Landmark α)) : Option (F64 α) := do
  let h0 ← hand[0]?
  let h12 ← hand[12]?
  let h17 ← hand[17]?
  some (F64.div (.fin (dist sqrt h0.X h0.Y h12.X h12.Y)) (.fin (dist sqrt h0.X h0.Y h17.X h17.Y)))

/-- The three `Add` calls of main.go 320-322. -/
def Windows.add {α : Type} (w : Windows α) (meanX meanY spread : F64 α) : Windows α :=
  ⟨w.w0.Add meanX, w.w1.Add meanY, w.w2.Add spread⟩

/-- The array `newMidi` computed from the windows of the hand, main.go 324-343:
the averages are read, the Y mean is inverted, the spread goes through `linlin`. -/
def mapped {α : Type} [LinearOrderedField α] [FloorRing α]
    (outOfRange : F64 α → ℤ) (w : Windows α) (h : Fin 2) : Fin 6 → ℤ :=
  newMidi outOfRange h w.w0.Avg (F64.sub (.fin 1) w.w1.Avg) (F64.linlin w.w2.Avg 0.85 2.3 0 1)

/-- The second half of the loop body, main.go 320-367, once the handedness entry
`hd`, the windows `w` of its label and the three raw features are at hand: the
windows are fed, the new values computed, the display update written and the
changed slots dispatched. -/
def finishHand {α : Type} [LinearOrderedField α] [FloorRing α]
    (env : Env α) (s : State α) (p : HandData α) (hd : Handedness α) (w : Windows α)
    (meanX meanY : α) (spread : F64 α) : State α × List Event :=
  let handedness := toLower hd.Label
  let w := w.add (.fin meanX) (.fin meanY) spread
  let h := handNum handedness
  let nm := mapped env.int64OutOfRange w h
  let display := Event.updateElement handedness hd.Label
    (chan h 0).val (nm (chan h 0)) (chan h 1).val (nm (chan h 1)) (chan h 2).val (nm (chan h 2))
  let r := dispatch env.midiOuts p.MIDIOut h nm s.lastMidi
  ({ (s.setMa hd.Label w) with lastMidi := r.1 }, display :: r.2)

/-- The body of the loop of main.go 298-368 for hand `i` of the frame: `none` is
a panic (an index out of range at main.go 310, 312 or 320), which happens before
anything is written. -/
def processHand {α : Type} [LinearOrderedField α] [FloorRing α]
    (env : Env α) (s : State α) (p : HandData α) (i : ℕ) (hand : List (Landmark α)) :
    Option (State α × List Event) := do
  let hd ← p.MultiHandedness[i]?
  let spread ← rawSpread env.sqrt hand
  let meanX := Mean (hand.map Landmark.X)
  let meanY := Mean (hand.map Landmark.Y)
  let w ← s.ma hd.Label
  some (finishHand env s p hd w meanX meanY spread)

/-- What a call of `processScore` leaves behind: the state, the writes made and
whether the call ended in a panic. -/
structure Run (α : Type) where
  state : State α
  out : List Event
  panicked : Bool

/-- The loop of main.go 298-368 over the hands that are left, hand `i` first. -/
def processHands {α : Type} [LinearOrderedField α] [FloorRing α]
    (env : Env α) (p : HandData α) : ℕ → List (List (Landmark α)) → State α → List Event → Run α
  | _, [], s, out => ⟨s, out, false⟩
  | i, hand :: rest, s, out =>
    match processHand env s p i hand with
    | none => ⟨s, out, true⟩
    | some (s1, evs) => processHands env p (i + 1) rest s1 (out ++ evs)

/-- Source `processScore` (main.go 292-369); `draw` is the value of
`rand.Float64()` for this frame. -/
def processScore {α : Type} [LinearOrderedField α] [FloorRing α]
    (env : Env α) (s : State α) (draw : α) (p : HandData α) : Run α :=
  if draw > (env.flagFrameRate : α) / 100 then ⟨s, [], false⟩
  else processHands env p 0 p.MultiHandLandmarks s []

/-- The frames of a connection processed one after the other from a state; a
panic ends the process, so later frames are not processed. -/
def processFrames {α : Type} [LinearOrderedField α] [FloorRing α]
    (env : Env α) : State α → List (α × HandData α) → Run α
  | s, [] => ⟨s, [], false⟩
  | s, (draw, p) :: rest =>
    let r := processScore env s draw p
    if r.panicked then r
    else
      let r2 := processFrames env r.state rest
      ⟨r2.state, r.out ++ r2.out, r2.panicked⟩

/-! ## Evaluation inputs and predicates of the statements -/

/-- A hand of `n` landmarks, all at the origin. -/
def zeroHand (n : ℕ) : List (Landmark ℚ) :=
  List.replicate n ⟨0, 0, 0⟩

/-- An environment over `ℚ`: `Rat.sqrt` (exact on squares), the amd64 conversion
(an `int64` conversion out of range yields `-2^63`), every frame kept, one
registered device "dev". -/
def envQ : Env ℚ :=
  { sqrt := Rat.sqrt, int64OutOfRange := fun _ => -2 ^ 63, flagFrameRate := 100,
    midiOuts := ["dev"] }

/-- The spec's rounding of C10: to the nearest integer, halves away from zero. -/
def roundHalfAway {α : Type} [LinearOrderedField α] [FloorRing α] (x : α) : ℤ :=
  if 0 ≤ x then ⌊x + 1 / 2⌋ else ⌈x - 1 / 2⌉

/-- A hand of 21 landmarks at height `y`: landmarks 12 and 17 at abscissa 1, the
others at abscissa 0, so that both distances of the spread are 1. -/
def levelHand (y : ℚ) : List (Landmark ℚ) :=
  (List.range 21).map fun j => ⟨if j = 12 ∨ j = 17 then 1 else 0, y, 0⟩

/-- A hand of `n` landmarks with abscissa `x`: landmarks 12 and 17 at height 1,
the others at height 0, so that both distances of the spread are 1. -/
def testHand {α : Type} [LinearOrderedField α] (n : ℕ) (x : α) : List (Landmark α) :=
  (List.range n).map fun j => ⟨x, if j = 12 ∨ j = 17 then 1 else 0, 0⟩

/-- The number of controller messages in a list of writes whose controller is `c`. -/
def dispatchCount (c : ℤ) : List Event → ℕ
  | [] => 0
  | Event.writeShort _ _ d1 _ :: rest => (if d1 = c then 1 else 0) + dispatchCount c rest
  | Event.updateElement _ _ _ _ _ _ _ _ :: rest => dispatchCount c rest

/-- A write is a well-formed controller message: status `0xB0`, controller in
`[0,5]`, value in `[0,127]`; a display update is no controller message. -/
def Event.wellFormed : Event → Prop
  | Event.writeShort _ status d1 d2 => status = 0xB0 ∧ 0 ≤ d1 ∧ d1 ≤ 5 ∧ 0 ≤ d2 ∧ d2 ≤ 127
  | Event.updateElement _ _ _ _ _ _ _ _ => True

/-- The slots of `lastMidi` all lie in `[0,127]`. -/
def State.inRange {α : Type} (s : State α) : Prop :=
  ∀ k, 0 ≤ s.lastMidi k ∧ s.lastMidi k ≤ 127

/-- A frame with one hand. -/
def frame1 (label : String) (hand : List (Landmark ℚ)) : HandData ℚ :=
  { MIDIOut := "dev", MultiHandLandmarks := [hand], MultiHandedness := [⟨0, 1, label⟩] }

/-! # Theorems -/

/-! ## Rounding, conversion and clamping -/

section Numeric

variable {α : Type} [LinearOrderedField α] [FloorRing α]

theorem clampMidi_nonneg (v : ℤ) : 0 ≤ clampMidi v := by
  unfold clampMidi
  split_ifs <;> omega

theorem clampMidi_le (v : ℤ) : clampMidi v ≤ 127 := by
  unfold clampMidi
  split_ifs <;> omega

theorem clampMidi_mono {u v : ℤ} (h : u ≤ v) : clampMidi u ≤ clampMidi v := by
  unfold clampMidi
  split_ifs <;> omega

theorem clampMidi_eq_max_min (v : ℤ) : clampMidi v = max 0 (min 127 v) := by
  unfold clampMidi
  split_ifs <;> omega

theorem mathRound_natCast (n : ℕ) : mathRound ((n : α)) = n := by
  have h0 : (0 : α) ≤ n := Nat.cast_nonneg n
  rw [mathRound, if_pos h0, Int.floor_eq_iff]
  constructor
  · push_cast
    linarith
  · push_cast
    linarith

theorem mathRound_mono {x y : α} (h : x ≤ y) : mathRound x ≤ mathRound y := by
  unfold mathRound
  by_cases hx : 0 ≤ x
  · have hy : 0 ≤ y := le_trans hx h
    rw [if_pos hx, if_pos hy]
    exact Int.floor_mono (by linarith)
  · rw [if_neg hx]
    have hx1 : (0 : ℤ) ≤ ⌊-x + 1 / 2⌋ := Int.floor_nonneg.mpr (by linarith [not_le.mp hx])
    by_cases hy : 0 ≤ y
    · rw [if_pos hy]
      have hy1 : (0 : ℤ) ≤ ⌊y + 1 / 2⌋ := Int.floor_nonneg.mpr (by linarith)
      omega
    · rw [if_neg hy]
      have : ⌊-y + 1 / 2⌋ ≤ ⌊-x + 1 / 2⌋ := Int.floor_mono (by linarith)
      omega

/-- The rounding of the code is the spec's rounding to the nearest integer with
halves away from zero. -/
theorem mathRound_eq_roundHalfAway (x : α) : mathRound x = roundHalfAway x := by
  unfold mathRound roundHalfAway
  split_ifs
  · rfl
  · rw [← Int.ceil_neg]
    congr 1
    ring

/-- On a rounded finite value within the `int64` range the conversion is exact. -/
theorem toInt64_round_fin (oor : F64 α → ℤ) (x : α)
    (hr : -2 ^ 63 ≤ mathRound x ∧ mathRound x < 2 ^ 63) :
    F64.toInt64 oor (F64.round (.fin x)) = mathRound x := by
  have e : (if (0 : α) ≤ ((mathRound x : ℤ) : α) then ⌊((mathRound x : ℤ) : α)⌋
      else ⌈((mathRound x : ℤ) : α)⌉) = mathRound x := by
    split_ifs
    · exact Int.floor_intCast _
    · exact Int.ceil_intCast _
  simp only [F64.round, F64.toInt64, e]
  rw [if_pos hr]

theorem newMidi_chan0 (oor : F64 α → ℤ) (h : Fin 2) (a b c : F64 α) :
    newMidi oor h a b c (chan h 0) =
      clampMidi (F64.toInt64 oor (F64.round (F64.mul a (.fin 127)))) := by
  fin_cases h <;> simp [newMidi, chan, Function.update]

theorem newMidi_chan1 (oor : F64 α → ℤ) (h : Fin 2) (a b c : F64 α) :
    newMidi oor h a b c (chan h 1) =
      clampMidi (F64.toInt64 oor (F64.round (F64.mul b (.fin 127)))) := by
  fin_cases h <;> simp [newMidi, chan, Function.update]

theorem newMidi_chan2 (oor : F64 α → ℤ) (h : Fin 2) (a b c : F64 α) :
    newMidi oor h a b c (chan h 2) =
      clampMidi (F64.toInt64 oor (F64.round (F64.mul c (.fin 127)))) := by
  fin_cases h <;> simp [newMidi, chan, Function.update]

theorem newMidi_range (oor : F64 α → ℤ) (h : Fin 2) (a b c : F64 α) (k : Fin 6) :
    0 ≤ newMidi oor h a b c k ∧ newMidi oor h a b c k ≤ 127 :=
  ⟨clampMidi_nonneg _, clampMidi_le _⟩

/-- The slot value of a finite `v` whose rounded product with 127 fits `int64`. -/
theorem slot_of_fin (oor : F64 α → ℤ) (v : α)
    (hr : -2 ^ 63 ≤ roundHalfAway (v * 127) ∧ roundHalfAway (v * 127) < 2 ^ 63) :
    clampMidi (F64.toInt64 oor (F64.round (F64.mul (.fin v) (.fin 127)))) =
      max 0 (min 127 (roundHalfAway (v * 127))) := by
  rw [← mathRound_eq_roundHalfAway] at hr ⊢
  have e : F64.mul (.fin v) (.fin (127 : α)) = .fin (v * 127) := rfl
  rw [e, toInt64_round_fin oor _ hr, clampMidi_eq_max_min]

end Numeric

/-! ## Range mapper -/

theorem linlin_of_le {α : Type} [LinearOrderedField α] {f slo : α} (shi dlo dhi : α) (h : f ≤ slo) :
    linlin f slo shi dlo dhi = dlo := by
  simp [linlin, h]

theorem linlin_of_ge {α : Type} [LinearOrderedField α] {f slo shi : α} (dlo dhi : α) (h1 : slo < f) (h2 : shi ≤ f) :
    linlin f slo shi dlo dhi = dhi := by
  simp [linlin, not_le.mpr h1, h2]

/-- C7, counterexample.  With `srcLo = srcHi = 0`, `dstLo = 0`, `dstHi = 1` the
value `0` satisfies `value ≥ srcHi` and is `srcHi` itself, yet `linlin` returns
`dstLo = 0`, not `dstHi = 1`: the test `f <= slo` of main.go 283 comes first. -/
theorem linlin_srcHi_counterexample :
    (0 : ℚ) ≥ 0 ∧ linlin (0 : ℚ) 0 0 0 1 = 0 ∧ linlin (0 : ℚ) 0 0 0 1 ≠ 1 := by
  refine ⟨le_refl _, ?_, ?_⟩ <;> simp [linlin]

/-- C7, amended.  For all values of an ordered field: `value ≤ srcLo` gives
`dstLo`; `value ≥ srcHi` gives `dstHi` when also `value > srcLo`;
`linlin srcLo = dstLo` always, and `linlin srcHi = dstHi` when `srcLo < srcHi`. -/
theorem linlin_clamps {α : Type} [LinearOrderedField α] (f slo shi dlo dhi : α) :
    (f ≤ slo → linlin f slo shi dlo dhi = dlo) ∧
    (slo < f → shi ≤ f → linlin f slo shi dlo dhi = dhi) ∧
    linlin slo slo shi dlo dhi = dlo ∧
    (slo < shi → linlin shi slo shi dlo dhi = dhi) :=
  ⟨linlin_of_le shi dlo dhi, linlin_of_ge dlo dhi, linlin_of_le shi dlo dhi (le_refl slo),
    fun h => linlin_of_ge dlo dhi h (le_refl shi)⟩

/-- C7, the amended statement at `srcLo = 1`, `srcHi = 2`, `dstLo = 10`,
`dstHi = 20`: the values `0`, `3`, `1` and `2`. -/
theorem linlin_clamps_witness :
    linlin (0 : ℚ) 1 2 10 20 = 10 ∧ linlin (3 : ℚ) 1 2 10 20 = 20 ∧
    linlin (1 : ℚ) 1 2 10 20 = 10 ∧ linlin (2 : ℚ) 1 2 10 20 = 20 :=
  ⟨(linlin_clamps (0 : ℚ) 1 2 10 20).1 (by norm_num),
    (linlin_clamps (3 : ℚ) 1 2 10 20).2.1 (by norm_num) (by norm_num),
    (linlin_clamps (0 : ℚ) 1 2 10 20).2.2.1,
    (linlin_clamps (0 : ℚ) 1 2 10 20).2.2.2 (by norm_num)⟩

section RangeMapper

variable {α : Type} [LinearOrderedField α] [FloorRing α]

theorem mathRound_127 : mathRound ((1 : α) * 127) = 127 := by
  have h := mathRound_natCast (α := α) 127
  simpa using h

theorem mathRound_0 : mathRound ((0 : α) * 127) = 0 := by
  have h := mathRound_natCast (α := α) 0
  simpa using h

theorem slot_of_one (oor : F64 α → ℤ) :
    clampMidi (F64.toInt64 oor (F64.round (F64.mul (.fin (1 : α)) (.fin 127)))) = 127 := by
  have e : F64.mul (.fin (1 : α)) (.fin (127 : α)) = .fin (1 * 127) := rfl
  rw [e, toInt64_round_fin oor _ (by rw [mathRound_127]; decide), mathRound_127]
  decide

theorem slot_of_zero (oor : F64 α → ℤ) :
    clampMidi (F64.toInt64 oor (F64.round (F64.mul (.fin (0 : α)) (.fin 127)))) = 0 := by
  have e : F64.mul (.fin (0 : α)) (.fin (127 : α)) = .fin (0 * 127) := rfl
  rw [e, toInt64_round_fin oor _ (by rw [mathRound_0]; decide), mathRound_0]
  decide

/-- C8.  The spread slot of `newMidi`, fed with `linlin s 0.85 2.3 0 1`, is 127
for every finite `s ≥ 2.3` and 0 for every finite `s ≤ 0.85`, whatever the hand,
the other two values and the platform's out-of-range conversion; in particular
at `s = 10.0` and at `s = -5.0`. -/
theorem spread_channel_saturates (oor : F64 α → ℤ) (h : Fin 2) (a b : F64 α) (s : α) :
    (2.3 ≤ s → newMidi oor h a b (F64.linlin (.fin s) 0.85 2.3 0 1) (chan h 2) = 127) ∧
    (s ≤ 0.85 → newMidi oor h a b (F64.linlin (.fin s) 0.85 2.3 0 1) (chan h 2) = 0) ∧
    newMidi oor h a b (F64.linlin (.fin 10.0) 0.85 2.3 0 1) (chan h 2) = 127 ∧
    newMidi oor h a b (F64.linlin (.fin (-5.0)) 0.85 2.3 0 1) (chan h 2) = 0 := by
  have hi : ∀ t : α, 2.3 ≤ t →
      newMidi oor h a b (F64.linlin (.fin t) 0.85 2.3 0 1) (chan h 2) = 127 := by
    intro t ht
    have h1 : (0.85 : α) < t := lt_of_lt_of_le (by norm_num) ht
    rw [newMidi_chan2, F64.linlin, linlin_of_ge 0 1 h1 ht, slot_of_one]
  have lo : ∀ t : α, t ≤ 0.85 →
      newMidi oor h a b (F64.linlin (.fin t) 0.85 2.3 0 1) (chan h 2) = 0 := by
    intro t ht
    rw [newMidi_chan2, F64.linlin, linlin_of_le 2.3 0 1 ht, slot_of_zero]
  exact ⟨hi s, lo s, hi 10.0 (by norm_num), lo (-5.0) (by norm_num)⟩

/-- C8 at the spread values 10.0 and -5.0 of a left hand over `ℚ`. -/
theorem spread_channel_saturates_witness :
    newMidi envQ.int64OutOfRange 0 (.fin 0) (.fin 0) (F64.linlin (.fin 10.0) 0.85 2.3 0 1)
      (chan 0 2) = 127 ∧
    newMidi envQ.int64OutOfRange 0 (.fin 0) (.fin 0) (F64.linlin (.fin (-5.0)) 0.85 2.3 0 1)
      (chan 0 2) = 0 :=
  ⟨(spread_channel_saturates envQ.int64OutOfRange 0 (.fin 0) (.fin 0) 10.0).1 (by norm_num),
    (spread_channel_saturates envQ.int64OutOfRange 0 (.fin 0) (.fin 0) (-5.0)).2.1
      (by norm_num)⟩

/-- C10, counterexample.  On a platform whose out-of-range `int64` conversion
yields `-2^63` (amd64), a left hand whose landmarks all have `y = -10^30`,
processed from the state after start-up: the smoothed mean Y is `b = -10^30`,
the claim's value `clamp (round ((1 - b) * 127))` is 127, but the Y slot shown
and kept is 0; the same hand at `y = 0` gives 127, so the Y slot went up as `b`
went up from `-10^30` to `0`. -/
theorem positionY_out_of_range_counterexample :
    (processScore envQ (State.init 10) 0 (frame1 "Left" (levelHand (-10 ^ 30)))).state.maLeft.w1.Avg
      = .fin (-10 ^ 30) ∧
    (processScore envQ (State.init 10) 0 (frame1 "Left" (levelHand (-10 ^ 30)))).out =
      [Event.updateElement "left" "Left" 0 12 1 0 2 13,
        Event.writeShort "dev" 0xB0 0 12, Event.writeShort "dev" 0xB0 2 13] ∧
    max 0 (min 127 (roundHalfAway ((1 - (-10 ^ 30 : ℚ)) * 127))) = 127 ∧
    (processScore envQ (State.init 10) 0 (frame1 "Left" (levelHand 0))).state.maLeft.w1.Avg
      = .fin 0 ∧
    (processScore envQ (State.init 10) 0 (frame1 "Left" (levelHand 0))).out =
      [Event.updateElement "left" "Left" 0 12 1 127 2 13,
        Event.writeShort "dev" 0xB0 0 12, Event.writeShort "dev" 0xB0 1 127,
        Event.writeShort "dev" 0xB0 2 13] := by
  refine ⟨?_, ?_, ?_, ?_, ?_⟩ <;> decide!

/-- C10, amended.  For the windows `w` of a processed hand with offset `h` whose
X and Y averages are the finite values `a` and `b`, when `round (a * 127)` and
`round ((1 - b) * 127)` lie in the `int64` range: slot `3h+0` of `newMidi` is
`max 0 (min 127 (round (a * 127)))` and slot `3h+1` is
`max 0 (min 127 (round ((1 - b) * 127)))`, `round` rounding halves away from
zero; over that range the Y slot does not increase when `b` grows; it is 127 at
`b = 0` and 0 at `b = 1`. -/
theorem positionY_inverted (oor : F64 α → ℤ) (w : Windows α) (h : Fin 2) (a b : α)
    (ha : w.w0.Avg = .fin a) (hb : w.w1.Avg = .fin b)
    (hra : -2 ^ 63 ≤ roundHalfAway (a * 127) ∧ roundHalfAway (a * 127) < 2 ^ 63)
    (hrb : -2 ^ 63 ≤ roundHalfAway ((1 - b) * 127) ∧ roundHalfAway ((1 - b) * 127) < 2 ^ 63) :
    mapped oor w h (chan h 0) = max 0 (min 127 (roundHalfAway (a * 127))) ∧
    mapped oor w h (chan h 1) = max 0 (min 127 (roundHalfAway ((1 - b) * 127))) ∧
    (∀ (w2 : Windows α) (b2 : α), w2.w1.Avg = .fin b2 → b ≤ b2 →
      -2 ^ 63 ≤ roundHalfAway ((1 - b2) * 127) → roundHalfAway ((1 - b2) * 127) < 2 ^ 63 →
      mapped oor w2 h (chan h 1) ≤ mapped oor w h (chan h 1)) ∧
    (b = 0 → mapped oor w h (chan h 1) = 127) ∧
    (b = 1 → mapped oor w h (chan h 1) = 0) ∧
    roundHalfAway ((5 : α) / 2) = 3 ∧ roundHalfAway (-(5 : α) / 2) = -3 := by
  have hy : ∀ (w3 : Windows α) (b3 : α), w3.w1.Avg = .fin b3 →
      (-2 ^ 63 ≤ roundHalfAway ((1 - b3) * 127) ∧ roundHalfAway ((1 - b3) * 127) < 2 ^ 63) →
      mapped oor w3 h (chan h 1) = max 0 (min 127 (roundHalfAway ((1 - b3) * 127))) := by
    intro w3 b3 h3 hr3
    rw [mapped, newMidi_chan1, h3]
    exact slot_of_fin oor (1 - b3) hr3
  have hx : mapped oor w h (chan h 0) = max 0 (min 127 (roundHalfAway (a * 127))) := by
    rw [mapped, newMidi_chan0, ha]
    exact slot_of_fin oor a hra
  have r127 : roundHalfAway ((1 : α) * 127) = 127 := by
    rw [← mathRound_eq_roundHalfAway, mathRound_127]
  have r0 : roundHalfAway ((0 : α) * 127) = 0 := by
    rw [← mathRound_eq_roundHalfAway, mathRound_0]
  refine ⟨hx, hy w b hb hrb, ?_, ?_, ?_, ?_, ?_⟩
  · intro w2 b2 hb2 hle hlo hhi
    rw [hy w b hb hrb, hy w2 b2 hb2 ⟨hlo, hhi⟩]
    have hm : roundHalfAway ((1 - b2) * 127) ≤ roundHalfAway ((1 - b) * 127) := by
      rw [← mathRound_eq_roundHalfAway, ← mathRound_eq_roundHalfAway]
      apply mathRound_mono
      have : (1 - b2) ≤ 1 - b := by linarith
      exact mul_le_mul_of_nonneg_right this (by norm_num)
    exact max_le_max (le_refl 0) (min_le_min (le_refl 127) hm)
  · intro h0
    rw [hy w b hb hrb, h0, sub_zero, r127]
    decide
  · intro h1
    rw [hy w b hb hrb, h1, sub_self, r0]
    decide
  · have h0 : (0 : α) ≤ 5 / 2 := by norm_num
    rw [roundHalfAway, if_pos h0, Int.floor_eq_iff]
    constructor <;> norm_num
  · have h0 : ¬ (0 : α) ≤ -5 / 2 := by norm_num
    rw [roundHalfAway, if_neg h0, Int.ceil_eq_iff]
    constructor <;> norm_num

/-- C10, the amended statement at windows whose X window holds the single sample
`1/2` and whose Y window holds the single sample `1/4`: the X slot of a left hand
is 64 and its Y slot is 95. -/
theorem positionY_inverted_witness :
    mapped envQ.int64OutOfRange
      (⟨⟨1, [.fin (1 / 2)]⟩, ⟨1, [.fin (1 / 4)]⟩, .New 1⟩ : Windows ℚ) 0 (chan 0 0) = 64 ∧
    mapped envQ.int64OutOfRange
      (⟨⟨1, [.fin (1 / 2)]⟩, ⟨1, [.fin (1 / 4)]⟩, .New 1⟩ : Windows ℚ) 0 (chan 0 1) = 95 := by
  have h := positionY_inverted envQ.int64OutOfRange
    (⟨⟨1, [.fin (1 / 2)]⟩, ⟨1, [.fin (1 / 4)]⟩, .New 1⟩ : Windows ℚ) 0 (1 / 2) (1 / 4)
    (by decide!) (by decide!) (by decide!) (by decide!)
  exact ⟨h.1.trans (by decide!), h.2.1.trans (by decide!)⟩

end RangeMapper

/-! ## Control emitter -/

theorem chan_injective (h : Fin 2) : Function.Injective (chan h) := by
  intro i j hij
  have : h.val * 3 + i.val = h.val * 3 + j.val := congrArg Fin.val hij
  exact Fin.ext (by omega)

theorem chan_val (h : Fin 2) (i : Fin 3) : ((chan h i).val : ℤ) = (h.val : ℤ) * 3 + i.val := by
  simp [chan]

/-- The messages the loop of main.go 360-365 writes, read off the slots before
the loop: slot `3h+i` is written when its new value differs. -/
theorem dispatch_out (midiOuts : List String) (device : String) (h : Fin 2)
    (nm last : Fin 6 → ℤ) (hd : device ∈ midiOuts) :
    (dispatch midiOuts device h nm last).2 =
      ([0, 1, 2] : List (Fin 3)).filterMap fun i =>
        if nm (chan h i) ≠ last (chan h i) then
          some (Event.writeShort device 0xB0 (chan h i).val (nm (chan h i)))
        else none := by
  have h01 : chan h 1 ≠ chan h 0 := fun e => absurd (chan_injective h e) (by decide)
  have h02 : chan h 2 ≠ chan h 0 := fun e => absurd (chan_injective h e) (by decide)
  have h12 : chan h 2 ≠ chan h 1 := fun e => absurd (chan_injective h e) (by decide)
  simp only [dispatch, if_pos hd, List.foldl, dispatchStep]
  by_cases c0 : nm (chan h 0) = last (chan h 0) <;>
  by_cases c1 : nm (chan h 1) = last (chan h 1) <;>
  by_cases c2 : nm (chan h 2) = last (chan h 2) <;>
  simp [c0, c1, c2, Function.update_noteq, h01, h02, h12, List.filterMap]

/-- The array `lastMidi` after the loop of main.go 360-365 with a registered
device: the three slots of the hand hold the new values, the others are
untouched. -/
theorem dispatch_last (midiOuts : List String) (device : String) (h : Fin 2)
    (nm last : Fin 6 → ℤ) (hd : device ∈ midiOuts) (k : Fin 6) :
    (dispatch midiOuts device h nm last).1 k =
      if ∃ i : Fin 3, k = chan h i then nm k else last k := by
  have h01 : chan h 1 ≠ chan h 0 := fun e => absurd (chan_injective h e) (by decide)
  have h02 : chan h 2 ≠ chan h 0 := fun e => absurd (chan_injective h e) (by decide)
  have h12 : chan h 2 ≠ chan h 1 := fun e => absurd (chan_injective h e) (by decide)
  have hex : (∃ i : Fin 3, k = chan h i) ↔ (k = chan h 0 ∨ k = chan h 1 ∨ k = chan h 2) := by
    constructor
    · rintro ⟨i, rfl⟩
      fin_cases i <;> simp
    · rintro (e | e | e) <;> exact ⟨_, e⟩
  simp only [dispatch, if_pos hd, List.foldl, dispatchStep, hex]
  by_cases c0 : nm (chan h 0) = last (chan h 0) <;>
  by_cases c1 : nm (chan h 1) = last (chan h 1) <;>
  by_cases c2 : nm (chan h 2) = last (chan h 2) <;>
  by_cases k0 : k = chan h 0 <;>
  by_cases k1 : k = chan h 1 <;>
  by_cases k2 : k = chan h 2 <;>
  simp_all [Function.update_noteq, Function.update]

theorem dispatch_unregistered (midiOuts : List String) (device : String) (h : Fin 2)
    (nm last : Fin 6 → ℤ) (hd : device ∉ midiOuts) :
    dispatch midiOuts device h nm last = (last, []) := by
  simp [dispatch, hd]

section Pipeline

variable {α : Type} [LinearOrderedField α] [FloorRing α]

/-- A hand that is processed without panic has a handedness entry, a raw spread
and windows under its label, and its effect is that of `finishHand`. -/
theorem processHand_some {env : Env α} {s : State α} {p : HandData α} {i : ℕ}
    {hand : List (Landmark α)} {r : State α × List Event}
    (hr : processHand env s p i hand = some r) :
    ∃ hd sp w, p.MultiHandedness[i]? = some hd ∧ rawSpread env.sqrt hand = some sp ∧
      s.ma hd.Label = some w ∧
      r = finishHand env s p hd w (Mean (hand.map Landmark.X)) (Mean (hand.map Landmark.Y)) sp := by
  unfold processHand at hr
  cases h1 : p.MultiHandedness[i]? with
  | none => simp [h1] at hr
  | some hd =>
    cases h2 : rawSpread env.sqrt hand with
    | none => simp [h1, h2] at hr
    | some sp =>
      cases h3 : s.ma hd.Label with
      | none => simp [h1, h2, h3] at hr
      | some w =>
        simp [h1, h2, h3] at hr
        exact ⟨hd, sp, w, rfl, rfl, h3, hr.symm⟩

theorem rawSpread_isSome_iff {β : Type} [LinearOrderedField β] (sqrt : β → β)
    (hand : List (Landmark β)) :
    (rawSpread sqrt hand).isSome = true ↔ 18 ≤ hand.length := by
  unfold rawSpread
  constructor
  · intro h
    by_contra hlt
    have h17 : hand[17]? = none := List.getElem?_eq_none (by omega)
    cases h0 : hand[0]? <;> cases h12 : hand[12]? <;> simp [h0, h12, h17] at h
  · intro h
    have h0 : hand[0]? = some (hand[0]) := List.getElem?_eq_getElem (by omega)
    have h12 : hand[12]? = some (hand[12]) := List.getElem?_eq_getElem (by omega)
    have h17 : hand[17]? = some (hand[17]) := List.getElem?_eq_getElem (by omega)
    simp [h0, h12, h17]

end Pipeline

section Emitter

variable {α : Type} [LinearOrderedField α] [FloorRing α]

theorem mapped_range (oor : F64 α → ℤ) (w : Windows α) (h : Fin 2) (k : Fin 6) :
    0 ≤ mapped oor w h k ∧ mapped oor w h k ≤ 127 :=
  newMidi_range _ _ _ _ _ k

/-- Every message of the compare-and-dispatch step is a controller message for a
slot of the hand carrying the new value of that slot. -/
theorem dispatch_mem (midiOuts : List String) (device : String) (h : Fin 2)
    (nm last : Fin 6 → ℤ) (e : Event) (he : e ∈ (dispatch midiOuts device h nm last).2) :
    ∃ i : Fin 3, e = Event.writeShort device 0xB0 (chan h i).val (nm (chan h i)) := by
  by_cases hd : device ∈ midiOuts
  · rw [dispatch_out _ _ _ _ _ hd, List.mem_filterMap] at he
    obtain ⟨i, _, hi⟩ := he
    by_cases c : nm (chan h i) = last (chan h i)
    · simp [c] at hi
    · simp [c] at hi
      exact ⟨i, hi.symm⟩
  · rw [dispatch_unregistered _ _ _ _ _ hd] at he
    simp at he

theorem dispatch_wellFormed (midiOuts : List String) (device : String) (h : Fin 2)
    (nm last : Fin 6 → ℤ) (hnm : ∀ k, 0 ≤ nm k ∧ nm k ≤ 127)
    (e : Event) (he : e ∈ (dispatch midiOuts device h nm last).2) : e.wellFormed := by
  obtain ⟨i, rfl⟩ := dispatch_mem _ _ _ _ _ e he
  have hc : (chan h i).val ≤ 5 := by have := (chan h i).isLt; omega
  refine ⟨rfl, by positivity, by exact_mod_cast hc, (hnm _).1, (hnm _).2⟩

theorem dispatch_range (midiOuts : List String) (device : String) (h : Fin 2)
    (nm last : Fin 6 → ℤ) (hnm : ∀ k, 0 ≤ nm k ∧ nm k ≤ 127)
    (hlast : ∀ k, 0 ≤ last k ∧ last k ≤ 127) (k : Fin 6) :
    0 ≤ (dispatch midiOuts device h nm last).1 k ∧
      (dispatch midiOuts device h nm last).1 k ≤ 127 := by
  by_cases hd : device ∈ midiOuts
  · rw [dispatch_last _ _ _ _ _ hd]
    split_ifs
    · exact hnm k
    · exact hlast k
  · rw [dispatch_unregistered _ _ _ _ _ hd]
    exact hlast k

theorem finishHand_wellFormed (env : Env α) (s : State α) (p : HandData α)
    (hd : Handedness α) (w : Windows α) (mx my : α) (sp : F64 α) :
    (∀ e ∈ (finishHand env s p hd w mx my sp).2, e.wellFormed) ∧
    (s.inRange → (finishHand env s p hd w mx my sp).1.inRange) := by
  constructor
  · intro e he
    simp only [finishHand, List.mem_cons] at he
    rcases he with rfl | he
    · trivial
    · exact dispatch_wellFormed _ _ _ _ _ (mapped_range _ _ _) e he
  · intro hs k
    exact dispatch_range _ _ _ _ _ (mapped_range _ _ _) hs k

theorem processHands_wellFormed (env : Env α) (p : HandData α) :
    ∀ (hands : List (List (Landmark α))) (i : ℕ) (s : State α) (out : List Event),
      (∀ e ∈ out, e.wellFormed) →
      (∀ e ∈ (processHands env p i hands s out).out, e.wellFormed) ∧
      (s.inRange → (processHands env p i hands s out).state.inRange) := by
  intro hands
  induction hands with
  | nil =>
    intro i s out hout
    exact ⟨hout, fun hs => hs⟩
  | cons hand rest ih =>
    intro i s out hout
    unfold processHands
    cases hr : processHand env s p i hand with
    | none => exact ⟨hout, fun hs => hs⟩
    | some r =>
      obtain ⟨hd, sp, w, -, -, -, rfl⟩ := processHand_some hr
      have hf := finishHand_wellFormed env s p hd w (Mean (hand.map Landmark.X))
        (Mean (hand.map Landmark.Y)) sp
      have hout2 : ∀ e ∈ out ++ (finishHand env s p hd w (Mean (hand.map Landmark.X))
          (Mean (hand.map Landmark.Y)) sp).2, e.wellFormed := by
        intro e he
        rcases List.mem_append.mp he with h1 | h1
        · exact hout e h1
        · exact hf.1 e h1
      have := ih (i + 1) (finishHand env s p hd w (Mean (hand.map Landmark.X))
          (Mean (hand.map Landmark.Y)) sp).1 _ hout2
      exact ⟨this.1, fun hs => this.2 (hf.2 hs)⟩

theorem processScore_wellFormed (env : Env α) (s : State α) (draw : α) (p : HandData α) :
    (∀ e ∈ (processScore env s draw p).out, e.wellFormed) ∧
    (s.inRange → (processScore env s draw p).state.inRange) := by
  unfold processScore
  split_ifs
  · exact ⟨by simp, fun hs => hs⟩
  · exact processHands_wellFormed env p _ 0 s [] (by simp)

theorem processFrames_inRange (env : Env α) :
    ∀ (frames : List (α × HandData α)) (s : State α), s.inRange →
      (processFrames env s frames).state.inRange := by
  intro frames
  induction frames with
  | nil => exact fun s hs => hs
  | cons f rest ih =>
    intro s hs
    obtain ⟨draw, p⟩ := f
    unfold processFrames
    have h1 := (processScore_wellFormed env s draw p).2 hs
    by_cases hp : (processScore env s draw p).panicked = true
    · simp only [hp, if_true]
      exact h1
    · simp only [hp]
      exact ih _ h1

/-- C1.  From the state after start-up, whatever frames are processed, all six
slots of `lastMidi` lie in `[0,127]`; and from any state, for any frame, every
controller message `processScore` writes has status `0xB0`, a controller in
`[0,5]` and a value in `[0,127]`. -/
theorem lastMidi_and_messages_in_range (env : Env α) (flagSmoothing : ℕ)
    (frames : List (α × HandData α)) :
    (∀ k : Fin 6, 0 ≤ (processFrames env (State.init flagSmoothing) frames).state.lastMidi k ∧
      (processFrames env (State.init flagSmoothing) frames).state.lastMidi k ≤ 127) ∧
    (∀ (s : State α) (draw : α) (p : HandData α) (device : String) (status d1 d2 : ℤ),
      Event.writeShort device status d1 d2 ∈ (processScore env s draw p).out →
        status = 0xB0 ∧ 0 ≤ d1 ∧ d1 ≤ 5 ∧ 0 ≤ d2 ∧ d2 ≤ 127) := by
  constructor
  · apply processFrames_inRange
    intro k
    simp [State.init]
  · intro s draw p device status d1 d2 he
    exact (processScore_wellFormed env s draw p).1 _ he

/-- The message for slot `3h+i` is written exactly when the device is registered
and the new value of the slot differs from the last one sent. -/
theorem dispatch_mem_iff (midiOuts : List String) (device : String) (h : Fin 2)
    (nm last : Fin 6 → ℤ) (i : Fin 3) :
    Event.writeShort device 0xB0 (chan h i).val (nm (chan h i)) ∈
        (dispatch midiOuts device h nm last).2 ↔
      (device ∈ midiOuts ∧ nm (chan h i) ≠ last (chan h i)) := by
  by_cases hd : device ∈ midiOuts
  · rw [dispatch_out _ _ _ _ _ hd, List.mem_filterMap]
    constructor
    · rintro ⟨j, _, hj⟩
      by_cases c : nm (chan h j) = last (chan h j)
      · simp [c] at hj
      · simp only [ne_eq, c, not_false_eq_true, if_true, Option.some.injEq,
          Event.writeShort.injEq, true_and] at hj
        have hji : chan h j = chan h i := Fin.ext (by exact_mod_cast hj.1)
        rw [← hji]
        exact ⟨hd, c⟩
    · rintro ⟨_, c⟩
      refine ⟨i, ?_, by simp [c]⟩
      fin_cases i <;> simp
  · rw [dispatch_unregistered _ _ _ _ _ hd]
    simp [hd]

/-- After the compare-and-dispatch step a slot holds its new value if it was
dispatched and its old value otherwise. -/
theorem dispatch_last_iff (midiOuts : List String) (device : String) (h : Fin 2)
    (nm last : Fin 6 → ℤ) (k : Fin 6) :
    (dispatch midiOuts device h nm last).1 k =
      if device ∈ midiOuts ∧ (∃ i : Fin 3, k = chan h i) ∧ nm k ≠ last k then nm k
      else last k := by
  by_cases hd : device ∈ midiOuts
  · rw [dispatch_last _ _ _ _ _ hd]
    by_cases hk : ∃ i : Fin 3, k = chan h i
    · by_cases c : nm k = last k
      · simp [hd, hk, c]
      · simp [hd, hk, c]
    · simp [hk]
  · rw [dispatch_unregistered _ _ _ _ _ hd]
    simp [hd]

/-- C2.  For every hand offset `h`, new values `nm`, last-sent state `last` and
`i < 3`: the compare-and-dispatch step writes the message
`(0xB0, 3h+i, nm[3h+i])` exactly when the device is registered and
`nm[3h+i] ≠ last[3h+i]`; it writes nothing else; afterwards a slot holds its new
value if it was dispatched and its old value otherwise, so that an unregistered
device writes nothing and changes no slot. -/
theorem dispatch_edge_triggered (midiOuts : List String) (device : String) (h : Fin 2)
    (nm last : Fin 6 → ℤ) :
    (∀ i : Fin 3,
      Event.writeShort device 0xB0 (chan h i).val (nm (chan h i)) ∈
          (dispatch midiOuts device h nm last).2 ↔
        (device ∈ midiOuts ∧ nm (chan h i) ≠ last (chan h i))) ∧
    (∀ e ∈ (dispatch midiOuts device h nm last).2,
      ∃ i : Fin 3, e = Event.writeShort device 0xB0 (chan h i).val (nm (chan h i))) ∧
    (∀ k : Fin 6, (dispatch midiOuts device h nm last).1 k =
      if device ∈ midiOuts ∧ (∃ i : Fin 3, k = chan h i) ∧ nm k ≠ last k then nm k
      else last k) ∧
    (device ∉ midiOuts → dispatch midiOuts device h nm last = (last, [])) :=
  ⟨dispatch_mem_iff _ _ _ _ _, dispatch_mem _ _ _ _ _, dispatch_last_iff _ _ _ _ _,
    dispatch_unregistered _ _ _ _ _⟩

/-- C2 at an unregistered device: nothing is written and no slot changes. -/
theorem dispatch_edge_triggered_witness :
    dispatch ["dev"] "other" 0 (fun _ => 5) (fun _ => 0) = (fun _ => 0, []) :=
  (dispatch_edge_triggered ["dev"] "other" 0 (fun _ => 5) (fun _ => 0)).2.2.2 (by decide)

end Emitter

/-! ## Edge triggering over two frames -/

theorem dispatchCount_append (c : ℤ) (xs ys : List Event) :
    dispatchCount c (xs ++ ys) = dispatchCount c xs + dispatchCount c ys := by
  induction xs with
  | nil => simp [dispatchCount]
  | cons e rest ih =>
    cases e with
    | updateElement _ _ _ _ _ _ _ _ => simpa [dispatchCount] using ih
    | writeShort _ _ _ _ =>
      have ih2 : dispatchCount c (rest.append ys) =
          dispatchCount c rest + dispatchCount c ys := ih
      simp only [List.cons_append, dispatchCount]
      rw [ih2]
      omega

/-- The compare-and-dispatch step writes one message on a slot of the hand when
the device is registered and the new value differs, and none otherwise. -/
theorem dispatchCount_dispatch (midiOuts : List String) (device : String) (h : Fin 2)
    (i : Fin 3) (nm last : Fin 6 → ℤ) :
    dispatchCount (chan h i).val (dispatch midiOuts device h nm last).2 =
      if device ∈ midiOuts ∧ nm (chan h i) ≠ last (chan h i) then 1 else 0 := by
  have e : ∀ j k : Fin 3, (((chan h j).val : ℤ) = ((chan h k).val : ℤ)) ↔ j = k := by
    intro j k
    constructor
    · intro hjk
      exact chan_injective h (Fin.ext (by exact_mod_cast hjk))
    · rintro rfl
      rfl
  by_cases hd : device ∈ midiOuts
  · rw [dispatch_out _ _ _ _ _ hd]
    by_cases c0 : nm (chan h 0) = last (chan h 0) <;>
    by_cases c1 : nm (chan h 1) = last (chan h 1) <;>
    by_cases c2 : nm (chan h 2) = last (chan h 2) <;>
    fin_cases i <;>
    simp [List.filterMap, dispatchCount, e, c0, c1, c2, hd]
  · rw [dispatch_unregistered _ _ _ _ _ hd]
    simp [dispatchCount, hd]

/-- C3, counterexample.  From the state after start-up, with the device
registered, two frames whose left hand has mean X `0` both map channel 0 to the
value 0 and write no message on channel 0 (not one); a frame mapping channel 0
to 0 followed by one mapping it to 64 writes one message on it (not two). -/
theorem repeated_value_counterexample :
    (processFrames envQ (State.init 10)
      [(0, frame1 "Left" (testHand 21 0)), (0, frame1 "Left" (testHand 21 0))]).out =
      [Event.updateElement "left" "Left" 0 0 1 115 2 13,
        Event.writeShort "dev" 0xB0 1 115, Event.writeShort "dev" 0xB0 2 13,
        Event.updateElement "left" "Left" 0 0 1 115 2 13] ∧
    (processFrames envQ (State.init 10)
      [(0, frame1 "Left" (testHand 21 0)), (0, frame1 "Left" (testHand 21 1))]).out =
      [Event.updateElement "left" "Left" 0 0 1 115 2 13,
        Event.writeShort "dev" 0xB0 1 115, Event.writeShort "dev" 0xB0 2 13,
        Event.updateElement "left" "Left" 0 64 1 115 2 13,
        Event.writeShort "dev" 0xB0 0 64] := by
  constructor <;> decide!

/-- C3, amended.  From all slots 0, with registered devices, two consecutive
compare-and-dispatch steps of the same hand that give slot `3h+i` the values
`v1` and then `v2` write on that slot one message if `v1 ≠ 0`, plus one message
if `v2 ≠ v1`: the same nonzero value twice gives one message, two differing
values give two when the first is not 0. -/
theorem two_frames_dispatch_count (midiOuts : List String) (device1 device2 : String)
    (h : Fin 2) (i : Fin 3) (nm1 nm2 : Fin 6 → ℤ)
    (hd1 : device1 ∈ midiOuts) (hd2 : device2 ∈ midiOuts) :
    dispatchCount (chan h i).val
      ((dispatch midiOuts device1 h nm1 (fun _ => 0)).2 ++
        (dispatch midiOuts device2 h nm2 (dispatch midiOuts device1 h nm1 (fun _ => 0)).1).2) =
      (if nm1 (chan h i) ≠ 0 then 1 else 0) + (if nm2 (chan h i) ≠ nm1 (chan h i) then 1 else 0) := by
  rw [dispatchCount_append, dispatchCount_dispatch, dispatchCount_dispatch,
    dispatch_last _ _ _ _ _ hd1]
  have hex : ∃ j : Fin 3, chan h i = chan h j := ⟨i, rfl⟩
  simp [hd1, hd2, hex]

/-- C3, the amended statement at the left hand's X slot: the values 5 then 5
give one message, the values 5 then 7 give two. -/
theorem two_frames_dispatch_count_witness :
    dispatchCount (chan 0 0).val
      ((dispatch ["dev"] "dev" 0 (fun _ => 5) (fun _ => 0)).2 ++
        (dispatch ["dev"] "dev" 0 (fun _ => 5)
          (dispatch ["dev"] "dev" 0 (fun _ => 5) (fun _ => 0)).1).2) = 1 ∧
    dispatchCount (chan 0 0).val
      ((dispatch ["dev"] "dev" 0 (fun _ => 5) (fun _ => 0)).2 ++
        (dispatch ["dev"] "dev" 0 (fun _ => 7)
          (dispatch ["dev"] "dev" 0 (fun _ => 5) (fun _ => 0)).1).2) = 2 :=
  ⟨(two_frames_dispatch_count ["dev"] "dev" "dev" 0 0 (fun _ => 5) (fun _ => 5)
      (by decide) (by decide)).trans (by decide),
    (two_frames_dispatch_count ["dev"] "dev" "dev" 0 0 (fun _ => 5) (fun _ => 7)
      (by decide) (by decide)).trans (by decide)⟩

section Degenerate

variable {α : Type} [LinearOrderedField α] [FloorRing α]

/-- A hand with at least 18 landmarks, a handedness entry and windows under its
label is processed without panic. -/
theorem processHand_of_long (env : Env α) (s : State α) (p : HandData α) (i : ℕ)
    (hand : List (Landmark α)) (hd : Handedness α) (w : Windows α)
    (hlen : 18 ≤ hand.length) (hi : p.MultiHandedness[i]? = some hd)
    (hw : s.ma hd.Label = some w) :
    ∃ sp, rawSpread env.sqrt hand = some sp ∧
      processHand env s p i hand =
        some (finishHand env s p hd w (Mean (hand.map Landmark.X))
          (Mean (hand.map Landmark.Y)) sp) := by
  have hs := (rawSpread_isSome_iff env.sqrt hand).mpr hlen
  obtain ⟨sp, hsp⟩ := Option.isSome_iff_exists.mp hs
  refine ⟨sp, hsp, ?_⟩
  simp [processHand, hi, hsp, hw]

/-- A hand with fewer than 18 landmarks ends the call at main.go 312. -/
theorem processHand_of_short (env : Env α) (s : State α) (p : HandData α) (i : ℕ)
    (hand : List (Landmark α)) (hlen : hand.length < 18) :
    processHand env s p i hand = none := by
  have hs : rawSpread env.sqrt hand = none := by
    cases h : rawSpread env.sqrt hand with
    | none => rfl
    | some sp =>
      have := (rawSpread_isSome_iff env.sqrt hand).mp (by simp [h])
      omega
  unfold processHand
  cases h1 : p.MultiHandedness[i]? <;> simp [h1, hs]

/-- A label other than "Left" and "Right" ends the call at main.go 320. -/
theorem processHand_of_unknown_label (env : Env α) (s : State α) (p : HandData α) (i : ℕ)
    (hand : List (Landmark α)) (hd : Handedness α) (hi : p.MultiHandedness[i]? = some hd)
    (h1 : hd.Label ≠ "Left") (h2 : hd.Label ≠ "Right") :
    processHand env s p i hand = none := by
  have hw : s.ma hd.Label = none := by simp [State.ma, h1, h2]
  unfold processHand
  cases hs : rawSpread env.sqrt hand <;> simp [hi, hs, hw]

/-- The windows found under a label after a hand with that label was processed
are the old ones with the three samples added. -/
theorem finishHand_ma (env : Env α) (s : State α) (p : HandData α) (hd : Handedness α)
    (w : Windows α) (mx my : α) (sp : F64 α) (hw : s.ma hd.Label = some w) :
    (finishHand env s p hd w mx my sp).1.ma hd.Label =
      some ⟨w.w0.Add (.fin mx), w.w1.Add (.fin my), w.w2.Add sp⟩ := by
  unfold State.ma at hw
  by_cases h1 : hd.Label = "Left"
  · simp [finishHand, State.ma, State.setMa, Windows.add, h1]
  · by_cases h2 : hd.Label = "Right"
    · simp [finishHand, State.ma, State.setMa, Windows.add, h2]
    · simp [h1, h2] at hw

/-- The quotient of the raw spread when the second distance is 0: NaN or an
infinity. -/
theorem rawSpread_of_zero {β : Type} [LinearOrderedField β] (sqrt : β → β)
    (hand : List (Landmark β)) (l0 l12 l17 : Landmark β)
    (h0 : hand[0]? = some l0) (h12 : hand[12]? = some l12) (h17 : hand[17]? = some l17)
    (hdeg : dist sqrt l0.X l0.Y l17.X l17.Y = 0) :
    ∃ sp, rawSpread sqrt hand = some sp ∧ (sp = .nan ∨ sp = .posInf ∨ sp = .negInf) := by
  have e : rawSpread sqrt hand = some (F64.div (.fin (dist sqrt l0.X l0.Y l12.X l12.Y))
      (.fin (dist sqrt l0.X l0.Y l17.X l17.Y))) := by
    simp [rawSpread, h0, h12, h17]
  refine ⟨_, e, ?_⟩
  simp only [hdeg, F64.div, if_true]
  split_ifs <;> simp

/-- The X and Y slots of a processed hand: what is written and what `lastMidi`
holds afterwards, when the device is registered. -/
theorem finishHand_xy (env : Env α) (s : State α) (p : HandData α) (hd : Handedness α)
    (w : Windows α) (mx my : α) (sp : F64 α) (hdev : p.MIDIOut ∈ env.midiOuts) :
    (Event.writeShort p.MIDIOut 0xB0 (chan (handNum (toLower hd.Label)) 0).val
        (max 0 (min 127 (F64.toInt64 env.int64OutOfRange
          (F64.round (F64.mul (w.w0.Add (.fin mx)).Avg (.fin 127)))))) ∈
          (finishHand env s p hd w mx my sp).2 ↔
      max 0 (min 127 (F64.toInt64 env.int64OutOfRange
          (F64.round (F64.mul (w.w0.Add (.fin mx)).Avg (.fin 127))))) ≠
        s.lastMidi (chan (handNum (toLower hd.Label)) 0)) ∧
    (Event.writeShort p.MIDIOut 0xB0 (chan (handNum (toLower hd.Label)) 1).val
        (max 0 (min 127 (F64.toInt64 env.int64OutOfRange
          (F64.round (F64.mul (F64.sub (.fin 1) (w.w1.Add (.fin my)).Avg) (.fin 127)))))) ∈
          (finishHand env s p hd w mx my sp).2 ↔
      max 0 (min 127 (F64.toInt64 env.int64OutOfRange
          (F64.round (F64.mul (F64.sub (.fin 1) (w.w1.Add (.fin my)).Avg) (.fin 127))))) ≠
        s.lastMidi (chan (handNum (toLower hd.Label)) 1)) ∧
    (finishHand env s p hd w mx my sp).1.lastMidi (chan (handNum (toLower hd.Label)) 0) =
      max 0 (min 127 (F64.toInt64 env.int64OutOfRange
          (F64.round (F64.mul (w.w0.Add (.fin mx)).Avg (.fin 127))))) ∧
    (finishHand env s p hd w mx my sp).1.lastMidi (chan (handNum (toLower hd.Label)) 1) =
      max 0 (min 127 (F64.toInt64 env.int64OutOfRange
          (F64.round (F64.mul (F64.sub (.fin 1) (w.w1.Add (.fin my)).Avg) (.fin 127))))) := by
  have e0 : mapped env.int64OutOfRange (w.add (.fin mx) (.fin my) sp) (handNum (toLower hd.Label))
      (chan (handNum (toLower hd.Label)) 0) =
      max 0 (min 127 (F64.toInt64 env.int64OutOfRange
          (F64.round (F64.mul (w.w0.Add (.fin mx)).Avg (.fin 127))))) := by
    rw [mapped, newMidi_chan0, clampMidi_eq_max_min]
    rfl
  have e1 : mapped env.int64OutOfRange (w.add (.fin mx) (.fin my) sp) (handNum (toLower hd.Label))
      (chan (handNum (toLower hd.Label)) 1) =
      max 0 (min 127 (F64.toInt64 env.int64OutOfRange
          (F64.round (F64.mul (F64.sub (.fin 1) (w.w1.Add (.fin my)).Avg) (.fin 127))))) := by
    rw [mapped, newMidi_chan1, clampMidi_eq_max_min]
    rfl
  have m0 := dispatch_mem_iff env.midiOuts p.MIDIOut (handNum (toLower hd.Label))
    (mapped env.int64OutOfRange (w.add (.fin mx) (.fin my) sp) (handNum (toLower hd.Label)))
    s.lastMidi 0
  have m1 := dispatch_mem_iff env.midiOuts p.MIDIOut (handNum (toLower hd.Label))
    (mapped env.int64OutOfRange (w.add (.fin mx) (.fin my) sp) (handNum (toLower hd.Label)))
    s.lastMidi 1
  have l0 := dispatch_last env.midiOuts p.MIDIOut (handNum (toLower hd.Label))
    (mapped env.int64OutOfRange (w.add (.fin mx) (.fin my) sp) (handNum (toLower hd.Label)))
    s.lastMidi hdev (chan (handNum (toLower hd.Label)) 0)
  have l1 := dispatch_last env.midiOuts p.MIDIOut (handNum (toLower hd.Label))
    (mapped env.int64OutOfRange (w.add (.fin mx) (.fin my) sp) (handNum (toLower hd.Label)))
    s.lastMidi hdev (chan (handNum (toLower hd.Label)) 1)
  rw [e0] at m0
  rw [e1] at m1
  rw [if_pos ⟨0, rfl⟩, e0] at l0
  rw [if_pos ⟨1, rfl⟩, e1] at l1
  refine ⟨?_, ?_, l0, l1⟩
  · simp only [finishHand, List.mem_cons, false_or]
    rw [m0]
    simp [hdev]
  · simp only [finishHand, List.mem_cons, false_or]
    rw [m1]
    simp [hdev]

/-- C4, counterexample.  A left hand of 21 landmarks all at `(0,0)`, so that
`dist` of landmarks 0 and 17 is 0, processed from the state after start-up with
the device registered: the call does not panic, but it writes the controller
message `(0xB0, 1, 127)` and `lastMidi[1]` becomes 127. -/
theorem degenerate_hand_counterexample :
    dist envQ.sqrt 0 0 0 0 = 0 ∧
    (processScore envQ (State.init 10) 0 (frame1 "Left" (zeroHand 21))).panicked = false ∧
    Event.writeShort "dev" 0xB0 1 127 ∈
      (processScore envQ (State.init 10) 0 (frame1 "Left" (zeroHand 21))).out ∧
    (State.init 10 : State ℚ).lastMidi 1 = 0 ∧
    (processScore envQ (State.init 10) 0 (frame1 "Left" (zeroHand 21))).state.lastMidi 1 = 127 := by
  refine ⟨?_, ?_, ?_, ?_, ?_⟩ <;> decide!

/-- C4, amended.  A hand of 21 landmarks whose landmarks 0 and 17 are at
distance 0, with a handedness entry whose label is a key of `ma` and a
registered device, is processed without panic and is not skipped.  Its mean X,
its mean Y and the quotient of the division by zero (NaN or an infinity) are
added to the three windows of its label.  With `a` and `b` the averages of the X
and Y windows after that, the message for slot `3h` with the value
`max 0 (min 127 (int64 (round (a * 127))))` is written exactly when that value
differs from `lastMidi[3h]`, likewise for slot `3h+1` and `1 - b`, and both
slots hold these values afterwards. -/
theorem degenerate_hand_processed (env : Env α) (s : State α) (p : HandData α) (i : ℕ)
    (hand : List (Landmark α)) (hd : Handedness α) (w : Windows α) (l0 l12 l17 : Landmark α)
    (hlen : hand.length = 21) (h0 : hand[0]? = some l0) (h12 : hand[12]? = some l12)
    (h17 : hand[17]? = some l17) (hdeg : dist env.sqrt l0.X l0.Y l17.X l17.Y = 0)
    (hi : p.MultiHandedness[i]? = some hd) (hw : s.ma hd.Label = some w)
    (hdev : p.MIDIOut ∈ env.midiOuts) :
    ∃ r sp, processHand env s p i hand = some r ∧
      (sp = .nan ∨ sp = .posInf ∨ sp = .negInf) ∧
      r.1.ma hd.Label = some ⟨w.w0.Add (.fin (Mean (hand.map Landmark.X))),
        w.w1.Add (.fin (Mean (hand.map Landmark.Y))), w.w2.Add sp⟩ ∧
      (Event.writeShort p.MIDIOut 0xB0 (chan (handNum (toLower hd.Label)) 0).val
          (max 0 (min 127 (F64.toInt64 env.int64OutOfRange (F64.round (F64.mul
            (w.w0.Add (.fin (Mean (hand.map Landmark.X)))).Avg (.fin 127)))))) ∈ r.2 ↔
        max 0 (min 127 (F64.toInt64 env.int64OutOfRange (F64.round (F64.mul
            (w.w0.Add (.fin (Mean (hand.map Landmark.X)))).Avg (.fin 127))))) ≠
          s.lastMidi (chan (handNum (toLower hd.Label)) 0)) ∧
      (Event.writeShort p.MIDIOut 0xB0 (chan (handNum (toLower hd.Label)) 1).val
          (max 0 (min 127 (F64.toInt64 env.int64OutOfRange (F64.round (F64.mul (F64.sub (.fin 1)
            (w.w1.Add (.fin (Mean (hand.map Landmark.Y)))).Avg) (.fin 127)))))) ∈ r.2 ↔
        max 0 (min 127 (F64.toInt64 env.int64OutOfRange (F64.round (F64.mul (F64.sub (.fin 1)
            (w.w1.Add (.fin (Mean (hand.map Landmark.Y)))).Avg) (.fin 127))))) ≠
          s.lastMidi (chan (handNum (toLower hd.Label)) 1)) ∧
      r.1.lastMidi (chan (handNum (toLower hd.Label)) 0) =
        max 0 (min 127 (F64.toInt64 env.int64OutOfRange (F64.round (F64.mul
            (w.w0.Add (.fin (Mean (hand.map Landmark.X)))).Avg (.fin 127))))) ∧
      r.1.lastMidi (chan (handNum (toLower hd.Label)) 1) =
        max 0 (min 127 (F64.toInt64 env.int64OutOfRange (F64.round (F64.mul (F64.sub (.fin 1)
            (w.w1.Add (.fin (Mean (hand.map Landmark.Y)))).Avg) (.fin 127))))) := by
  obtain ⟨sp, hsp, hnf⟩ := rawSpread_of_zero env.sqrt hand l0 l12 l17 h0 h12 h17 hdeg
  obtain ⟨sp2, hsp2, hr⟩ := processHand_of_long env s p i hand hd w (by omega) hi hw
  have e : sp2 = sp := Option.some.inj (hsp2.symm.trans hsp)
  subst e
  exact ⟨_, sp2, hr, hnf, finishHand_ma env s p hd w _ _ sp2 hw,
    finishHand_xy env s p hd w _ _ sp2 hdev⟩

/-- C4, the amended statement at a left hand of 21 landmarks all at `(0,0)`, from
the state after start-up: the hand is processed, NaN enters the spread window,
and the Y slot of `lastMidi` becomes 127. -/
theorem degenerate_hand_processed_witness :
    ∃ r, processHand envQ (State.init 10) (frame1 "Left" (zeroHand 21)) 0 (zeroHand 21) = some r ∧
      r.1.maLeft.w2.values = [.nan] ∧ r.1.lastMidi 1 = 127 := by
  obtain ⟨r, sp, hr, -, hma, -, -, -, h1⟩ := degenerate_hand_processed envQ (State.init 10)
    (frame1 "Left" (zeroHand 21)) 0 (zeroHand 21) ⟨0, 1, "Left"⟩
    ⟨.New 10, .New 10, .New 10⟩ ⟨0, 0, 0⟩ ⟨0, 0, 0⟩ ⟨0, 0, 0⟩
    (by decide) rfl rfl rfl (by decide!) rfl rfl (by decide)
  refine ⟨r, hr, ?_, ?_⟩
  · have hr2 : processHand envQ (State.init 10) (frame1 "Left" (zeroHand 21)) 0 (zeroHand 21) =
        some r := hr
    have hv : ((processHand envQ (State.init 10) (frame1 "Left" (zeroHand 21)) 0
        (zeroHand 21)).map fun q => q.1.maLeft.w2.values) = some [.nan] := by decide!
    rw [hr2] at hv
    exact Option.some.inj hv
  · have e : chan (handNum (toLower "Left")) 1 = 1 := by decide
    rw [e] at h1
    rw [h1]
    decide!

/-- A division by zero with a nonzero dividend: a left hand of 21 landmarks at
`(1/2, 0)` except landmark 12 at `(1/2, 1)` has raw spread `+Inf`, which
`linlin` maps to 1, and the controller message `(0xB0, 2, 127)` is written. -/
theorem infinite_spread_example :
    rawSpread envQ.sqrt ((List.range 21).map fun j => ⟨1 / 2, if j = 12 then 1 else 0, 0⟩) =
      some .posInf ∧
    (processScore envQ (State.init 10) 0 (frame1 "Left"
      ((List.range 21).map fun j => ⟨1 / 2, if j = 12 then 1 else 0, 0⟩))).out =
      [Event.updateElement "left" "Left" 0 64 1 121 2 127,
        Event.writeShort "dev" 0xB0 0 64, Event.writeShort "dev" 0xB0 1 121,
        Event.writeShort "dev" 0xB0 2 127] := by
  constructor <;> decide!

end Degenerate

section Malformed

variable {α : Type} [LinearOrderedField α] [FloorRing α]

/-- C5, counterexample.  A left hand of 18 landmarks is not skipped: from the
state after start-up the call writes the controller messages `(0xB0, 1, 113)`
and `(0xB0, 2, 13)`; a hand of 17 landmarks, and one of 0 landmarks, end the
call in a panic. -/
theorem short_hand_counterexample :
    (testHand 18 (0 : ℚ)).length = 18 ∧
    (processScore envQ (State.init 10) 0 (frame1 "Left" (testHand 18 0))).out =
      [Event.updateElement "left" "Left" 0 0 1 113 2 13,
        Event.writeShort "dev" 0xB0 1 113, Event.writeShort "dev" 0xB0 2 13] ∧
    (processScore envQ (State.init 10) 0 (frame1 "Left" (testHand 17 0))).panicked = true ∧
    (processScore envQ (State.init 10) 0 (frame1 "Left" (testHand 0 0))).panicked = true := by
  refine ⟨?_, ?_, ?_, ?_⟩ <;> decide!

/-- C5, amended.  For a hand with fewer than 21 landmarks: if it has fewer than
18, the loop over the hands of the frame writes nothing for it and leaves the
state as it was before it; if it has 18, 19 or 20, a handedness entry and
windows under its label, it is processed like a full hand, with the means taken
over the landmarks present. -/
theorem short_hand_effect (env : Env α) (p : HandData α) (i : ℕ) (hand : List (Landmark α))
    (rest : List (List (Landmark α))) (s : State α) (out : List Event)
    (hlen : hand.length < 21) :
    (hand.length < 18 →
      (processHands env p i (hand :: rest) s out).state = s ∧
      (processHands env p i (hand :: rest) s out).out = out) ∧
    (18 ≤ hand.length → ∀ (hd : Handedness α) (w : Windows α),
      p.MultiHandedness[i]? = some hd → s.ma hd.Label = some w →
      ∃ sp, rawSpread env.sqrt hand = some sp ∧
        processHand env s p i hand =
          some (finishHand env s p hd w (Mean (hand.map Landmark.X))
            (Mean (hand.map Landmark.Y)) sp)) := by
  have _ := hlen
  constructor
  · intro h
    unfold processHands
    rw [processHand_of_short env s p i hand h]
    exact ⟨rfl, rfl⟩
  · intro h hd w hi hw
    exact processHand_of_long env s p i hand hd w h hi hw

/-- C5, the amended statement at a left hand of 17 landmarks (nothing written)
and at one of 18 landmarks (processed). -/
theorem short_hand_effect_witness :
    (processHands envQ (frame1 "Left" (testHand 17 0)) 0 [testHand 17 0] (State.init 10) []).out
      = [] ∧
    (processHand envQ (State.init 10) (frame1 "Left" (testHand 18 0)) 0
      (testHand 18 0)).isSome = true := by
  constructor
  · exact ((short_hand_effect envQ (frame1 "Left" (testHand 17 0)) 0 (testHand 17 0) []
      (State.init 10) [] (by decide)).1 (by decide)).2
  · obtain ⟨sp, -, hr⟩ := (short_hand_effect envQ (frame1 "Left" (testHand 18 0)) 0
      (testHand 18 0) [] (State.init 10) [] (by decide)).2 (by decide) ⟨0, 1, "Left"⟩
      ⟨.New 10, .New 10, .New 10⟩ rfl rfl
    rw [hr]
    rfl

/-- C6, evaluation at the failing input.  The labels "left", "LEFT" and "right"
have the lowercase forms "left" and "right" and select the same hand number as
"Left" and "Right", yet the call panics on them at the lookup `ma[label]`
(main.go 320), writing nothing, while the same hand under "Left" is processed. -/
theorem lowercase_label_panics :
    toLower "left" = toLower "Left" ∧ toLower "LEFT" = toLower "Left" ∧
    toLower "right" = toLower "Right" ∧
    (processScore envQ (State.init 10) 0 (frame1 "left" (testHand 21 0))).panicked = true ∧
    (processScore envQ (State.init 10) 0 (frame1 "left" (testHand 21 0))).out = [] ∧
    (processScore envQ (State.init 10) 0 (frame1 "LEFT" (testHand 21 0))).panicked = true ∧
    (processScore envQ (State.init 10) 0 (frame1 "right" (testHand 21 0))).panicked = true ∧
    (processScore envQ (State.init 10) 0 (frame1 "Left" (testHand 21 0))).panicked = false ∧
    (processScore envQ (State.init 10) 0 (frame1 "Left" (testHand 21 0))).out =
      [Event.updateElement "left" "Left" 0 0 1 115 2 13,
        Event.writeShort "dev" 0xB0 1 115, Event.writeShort "dev" 0xB0 2 13] := by
  refine ⟨?_, ?_, ?_, ?_, ?_, ?_, ?_, ?_, ?_⟩ <;> decide!

end Malformed

end Midihands
